import Mathlib

/-!
Verification of the conversion orchestration engine of the towebp/lazywebp
repository (src/converter.ts, src/utils.ts, src/types.ts) against its
natural-language specification.

The TypeScript source is shallowly embedded: the mutable ConversionStats
object becomes explicit state passing, every fallible filesystem or codec
operation becomes an explicit outcome supplied by a task environment
(TaskEnv), and the filesystem itself is modelled as an association list
from paths to file metadata for the whole-run theorems.
-/

namespace Towebp

/-- Embeds the FailedFile record of types.ts: one entry of stats.failed. -/
structure FailedFile where
  file : String
  error : String
deriving DecidableEq, Repr

/-- Embeds ConversionStats of types.ts (startTime and endTime, which only
feed the formatted duration, are kept abstract as the run clock). -/
structure ConversionStats where
  processed : Nat
  skipped : Nat
  failed : List FailedFile
  totalFiles : Nat
  totalBytes : Int
  savedBytes : Int
deriving DecidableEq, Repr

/-- Embeds the fresh statistics object built by resetStats in converter.ts. -/
def initStats : ConversionStats :=
  { processed := 0, skipped := 0, failed := [], totalFiles := 0
    totalBytes := 0, savedBytes := 0 }

/-- Embeds FileConversionResult of types.ts. -/
structure FileConversionResult where
  success : Bool
  skipped : Option Bool
  error : Option String
deriving DecidableEq, Repr

/-- Embeds ConversionTask of types.ts. -/
structure ConversionTask where
  inputPath : String
  outputPath : String
deriving DecidableEq, Repr

/-- Metadata returned by a successful stat call: st.size and st.mtime of
node:fs, plus the lstat symbolic-link bit used by the output guard. -/
structure FileInfo where
  size : Nat
  mtime : Nat
  isSymlink : Bool
deriving DecidableEq, Repr

/-- Outcome of the fs.lstat call on the output path in convertImage:
the call can find an entry (symlink or not), fail with ENOENT, or fail
with some other error code carrying its message. -/
inductive LstatRes where
  | found (isLink : Bool)
  | enoent
  | errOther (msg : String)
deriving DecidableEq, Repr

/-- Embeds ImageConverter.shouldProcessImage (converter.ts lines 188-206).
accessOutputOk is the fs.access(outputPath) probe; statInput and statOutput
are the two fs.stat calls, which may reject.  The catch-all returns true
(must convert) on any stat error.  The source returns
inputStats.mtime > outputStats.mtime || outputStats.size === 0. -/
def shouldProcessImage (accessOutputOk : Bool)
    (statInput statOutput : Except String FileInfo) : Bool :=
  if accessOutputOk = false then true
  else
    match statInput, statOutput with
    | .ok i, .ok o => decide (o.mtime < i.mtime) || decide (o.size = 0)
    | _, _ => true

/-- Per-task environment: the outcome of every awaited filesystem or codec
operation performed by ImageConverter.convertImage, in source order.
statInput0 and statOutput0 feed shouldProcessImage; statInputSize is the
separate fs.stat(inputPath) on line 219; metadataSpace is the
pipeline.metadata() call (carrying the color space field); toFileRes is the
webp encode into the temp file; statTemp is the fs.stat(tempOutput) size;
lstatOutput drives the symlink guard; renameRes is the final fs.rename;
unlinkOk tells whether the best-effort cleanup unlink would succeed. -/
structure TaskEnv where
  accessOutputOk : Bool
  statInput0 : Except String FileInfo
  statOutput0 : Except String FileInfo
  statInputSize : Except String Nat
  mkdirRes : Except String Unit
  metadataSpace : Except String (Option String)
  toFileRes : Except String Unit
  statTemp : Except String Nat
  lstatOutput : LstatRes
  renameRes : Except String Unit
  unlinkOk : Bool

/-- Observable filesystem effects of one convertImage call: whether the
temp path was assigned (so the catch block attempts unlink), whether the
codec actually wrote the temp file, whether the final rename happened,
whether cleanup unlink was attempted, and whether a temp file is left
behind afterwards. -/
structure ConvTrace where
  tempAssigned : Bool
  tempWritten : Bool
  renamed : Bool
  unlinkAttempted : Bool
  tempRemains : Bool
deriving DecidableEq, Repr

/-- Embeds the catch block of convertImage (converter.ts lines 277-292):
best-effort unlink of the temp file when tempOutput was assigned (cleanup
errors swallowed, so unlinkOk only affects whether a temp file remains),
push of the FailedFile record, and the failure result. -/
def convFail (inputPath : String) (tempAssigned tempWritten unlinkOk : Bool)
    (msg : String) (st : ConversionStats) :
    ConversionStats × FileConversionResult × ConvTrace :=
  ({ st with failed := st.failed ++ [{ file := inputPath, error := msg }] },
   { success := false, skipped := none, error := some msg },
   { tempAssigned := tempAssigned, tempWritten := tempWritten
     renamed := false, unlinkAttempted := tempAssigned
     tempRemains := tempWritten && !(tempAssigned && unlinkOk) })

/-- Source string of the empty-output validation throw (converter.ts 257). -/
def emptyOutputMsg : String := "Generated file is empty"

/-- Source string of the symlink-guard throw (converter.ts 264). -/
def symlinkMsg : String := "Output path is a symbolic link — refusing to overwrite"

/-- Embeds the color-space decision of convertImage (converter.ts 239-242):
the pipeline converts to srgb when metadata.space is rgb or display-p3. -/
def needsSrgb (space : Option String) : Bool :=
  space = some "rgb" || space = some "display-p3"

/-- Embeds ImageConverter.convertImage (converter.ts lines 208-293) as a
state transformer over ConversionStats, additionally returning the result
record and the trace of filesystem effects.  The try block is the nested
match chain in source order; every error falls to convFail, which embeds
the catch block.  tempOutput is assigned right after the input-size stat,
so failures before that point have tempAssigned = false. -/
def convertImage (env : TaskEnv) (inputPath _outputPath : String)
    (st : ConversionStats) :
    ConversionStats × FileConversionResult × ConvTrace :=
  if shouldProcessImage env.accessOutputOk env.statInput0 env.statOutput0 = false then
    ({ st with skipped := st.skipped + 1 },
     { success := true, skipped := some true, error := none },
     { tempAssigned := false, tempWritten := false, renamed := false
       unlinkAttempted := false, tempRemains := false })
  else
    match env.statInputSize with
    | .error msg => convFail inputPath false false env.unlinkOk msg st
    | .ok inputSize =>
      match env.mkdirRes with
      | .error msg => convFail inputPath true false env.unlinkOk msg st
      | .ok _ =>
        match env.metadataSpace with
        | .error msg => convFail inputPath true false env.unlinkOk msg st
        | .ok _space =>
          match env.toFileRes with
          | .error msg => convFail inputPath true false env.unlinkOk msg st
          | .ok _ =>
            match env.statTemp with
            | .error msg => convFail inputPath true true env.unlinkOk msg st
            | .ok tempSize =>
              if tempSize = 0 then
                convFail inputPath true true env.unlinkOk emptyOutputMsg st
              else
                match env.lstatOutput with
                | .found true =>
                  convFail inputPath true true env.unlinkOk symlinkMsg st
                | .errOther msg =>
                  convFail inputPath true true env.unlinkOk msg st
                | _ =>
                  match env.renameRes with
                  | .error msg => convFail inputPath true true env.unlinkOk msg st
                  | .ok _ =>
                    ({ st with
                        processed := st.processed + 1
                        totalBytes := st.totalBytes + inputSize
                        savedBytes := st.savedBytes + ((inputSize : Int) - (tempSize : Int)) },
                     { success := true, skipped := some false, error := none },
                     { tempAssigned := true, tempWritten := true, renamed := true
                       unlinkAttempted := false, tempRemains := false })

/-- Splits a character list at every occurrence of the separator, modelling
the segment view of a path used by node:path (always returns at least one
segment). -/
def splitCh (c : Char) : List Char → List (List Char)
  | [] => [[]]
  | x :: xs =>
    match splitCh c xs with
    | [] => [[x]]
    | s :: rest => if x = c then [] :: s :: rest else (x :: s) :: rest

/-- Joins segments back with the separator, inverse of splitCh. -/
def joinCh (c : Char) : List (List Char) → List Char
  | [] => []
  | [s] => s
  | s :: rest => s ++ c :: joinCh c rest

/-- Last path segment: models node:path basename for the slash-free-trailing
paths this program builds. -/
def lastSeg (p : String) : List Char :=
  (splitCh '/' p.data).getLastD []

/-- Extension of a basename including the leading dot, modelling
node:path extname: empty when there is no dot or when the only dot leads a
dotfile. -/
def extFrom (bn : List Char) : List Char :=
  let rev := bn.reverse
  if rev.contains '.' then
    let after := rev.takeWhile (fun c => c ≠ '.')
    let idx := bn.length - 1 - after.length
    if idx = 0 then [] else '.' :: after.reverse
  else []

/-- Models node:path extname on a full path. -/
def extname (p : String) : String := ⟨extFrom (lastSeg p)⟩

/-- Models path.parse(p).name: the basename with its extension removed. -/
def parseName (p : String) : String :=
  let bn := lastSeg p
  ⟨bn.take (bn.length - (extFrom bn).length)⟩

/-- Models node:path dirname for the slash-free-trailing paths this
program builds. -/
def dirname (p : String) : String :=
  let segs := splitCh '/' p.data
  if segs.length ≤ 1 then "."
  else
    let d := joinCh '/' segs.dropLast
    if d.isEmpty then "/" else ⟨d⟩

/-- Models node:path join on two components for the shapes this program
produces (a dot or empty component disappears, as join normalizes it). -/
def joinPath (a b : String) : String :=
  if a = "." ∨ a = "" then b
  else if b = "." ∨ b = "" then a
  else if a.data.getLastD ' ' = '/' then a ++ b
  else a ++ "/" ++ b

/-- Normalizes absolute-path segments: drops empty and dot segments and
lets a dot-dot segment pop the previous one, staying at the root when
there is none; models the normalization inside node:path resolve. -/
def normGo (acc : List (List Char)) : List (List Char) → List (List Char)
  | [] => acc.reverse
  | s :: rest =>
    if s = [] ∨ s = ['.'] then normGo acc rest
    else if s = ['.', '.'] then normGo (acc.drop 1) rest
    else normGo (s :: acc) rest

/-- Models node:path resolve on a single argument: relative paths are
anchored at an abstract working directory, then segments are normalized. -/
def resolvePath (p : String) : String :=
  let q := if p.data.head? = some '/' then p else "/cwd/" ++ p
  ⟨'/' :: joinCh '/' (normGo [] (splitCh '/' q.data))⟩

/-- Embeds INPUT_FORMATS of utils.ts. -/
def INPUT_FORMATS : List String := ["jpg", "jpeg", "png", "gif", "bmp", "tiff", "webp"]

/-- Embeds isImageFile of utils.ts: the lowercased extension without its
dot must be one of the supported formats. -/
def isImageFile (filePath : String) : Bool :=
  let ext : String := ⟨((extFrom (lastSeg filePath)).map Char.toLower).drop 1⟩
  INPUT_FORMATS.contains ext

/-- Renders the fractional hundredths as exactly two digits, the shape
produced by JavaScript toFixed(2). -/
def twoDigits (n : Nat) : String :=
  if n < 10 then "0" ++ toString n else toString n

/-- Renders a nonnegative count of hundredths as an integer part, a dot
and two digits, the shape produced by JavaScript toFixed(2). -/
def fix2Nat (n : Nat) : String :=
  toString (n / 100) ++ "." ++ twoDigits (n % 100)

/-- Unit names of formatBytes in utils.ts. -/
def byteUnits : List String := ["B", "KB", "MB", "GB"]

/-- Embeds the while loop of formatBytes (utils.ts): promote the unit
while size is at least 1024 and a larger unit exists.  After k divisions
the running size is bytes divided by 2 to the 10k, which is at least 1024
exactly when bytes is at least 2 to the 10k plus 10; the loop runs at most
three times (the unit index is bounded by 3), so fuel 3 makes the
recursion structural.  Returns the final unit index. -/
def formatBytesGo (fuel : Nat) (bytes : Nat) (unit : Nat) : Nat :=
  match fuel with
  | 0 => unit
  | fuel + 1 =>
    if 2 ^ (10 * unit + 10) ≤ bytes ∧ unit < byteUnits.length - 1 then
      formatBytesGo fuel bytes (unit + 1)
    else unit

/-- Embeds formatBytes of utils.ts.  The source divides an IEEE double by
1024 up to three times and applies toFixed(2); for integer byte counts
below 2 to the 53 every division is exact (a power-of-two denominator), so
the value handed to toFixed(2) is exactly bytes divided by 2 to the 10u,
and toFixed(2) rounds it half-up at two decimals: the rendered hundredths
are the floor of (bytes times 200 plus 2 to the 10u) divided by
2 to the (10u plus 1).  A negative count (possible for savedBytes) never
enters the loop and renders as a negative whole number of B. -/
def formatBytes (bytes : Int) : String :=
  if bytes < 0 then
    "-" ++ fix2Nat ((-bytes).toNat * 100) ++ " B"
  else
    fix2Nat ((bytes.toNat * 200 + 2 ^ (10 * formatBytesGo 3 bytes.toNat 0))
        / 2 ^ (10 * formatBytesGo 3 bytes.toNat 0 + 1))
      ++ " " ++ byteUnits.getD (formatBytesGo 3 bytes.toNat 0) "B"

/-- Embeds formatDuration of utils.ts. -/
def formatDuration (ms : Nat) : String :=
  let seconds := ms / 1000
  let minutes := seconds / 60
  if minutes > 0 then toString minutes ++ "m " ++ toString (seconds % 60) ++ "s"
  else toString seconds ++ "s"

/-- Embeds getDiskSpace of utils.ts: on a successful statfs the available
space is bavail times bsize; on any statfs error the function warns and
returns Infinity, modelled as none. -/
def getDiskSpace (statfsRes : Except String (Nat × Nat)) : Option ℚ :=
  match statfsRes with
  | .ok bb => some ((bb.1 : ℚ) * (bb.2 : ℚ))
  | .error _ => none

/-- Embeds the disk-space comparison of validatePaths (converter.ts 168):
available < requiredSpace * 1.2, where Infinity compares false against
everything.  The JavaScript literal 1.2 is modelled by the rational 6/5;
the claims settled here do not depend on its binary rounding. -/
def spaceInsufficient (available : Option ℚ) (required : ℚ) : Bool :=
  match available with
  | none => false
  | some v => decide (v < required * (6 / 5))

/-- Environment of one validatePaths call (converter.ts lines 155-171):
the stat of the input directory, the two access probes, the mkdir of the
output directory, the statfs behind getDiskSpace, and the directory size
(getDirectorySize swallows every per-file stat error, so it always yields
a number). -/
structure PreflightEnv where
  inputIsDir : Bool
  accessRead : Except String Unit
  mkdirOut : Except String Unit
  accessWrite : Except String Unit
  statfsRes : Except String (Nat × Nat)
  dirSize : Nat

/-- Source string of the disk-space throw (converter.ts 169). -/
def insufficientMsg : String := "Insufficient disk space"

/-- Embeds ImageConverter.validatePaths (converter.ts lines 155-171). -/
def validatePaths (env : PreflightEnv) : Except String Unit :=
  if env.inputIsDir = false then .error "Input path is not a directory"
  else
    match env.accessRead with
    | .error msg => .error msg
    | .ok _ =>
      match env.mkdirOut with
      | .error msg => .error msg
      | .ok _ =>
        match env.accessWrite with
        | .error msg => .error msg
        | .ok _ =>
          let available := getDiskSpace env.statfsRes
          if spaceInsufficient available (env.dirSize : ℚ) then
            .error insufficientMsg
          else .ok ()

/-- Embeds ConversionConfig of types.ts. -/
structure ConversionConfig where
  quality : Int
  maxConcurrent : Nat
deriving DecidableEq, Repr

/-- Embeds the ImageConverter constructor clamps (converter.ts 14-18):
quality into the range 1 to 100 and maxConcurrent to
max 1 (min (cpus - 1) 4). -/
def mkConfig (quality : Int) (cpus : Nat) : ConversionConfig :=
  { quality := max 1 (min quality 100)
    maxConcurrent := max 1 (min (cpus - 1) 4) }

/-- Embeds ConversionResult of types.ts: the immutable report built by
buildResult. -/
structure ConversionResult where
  totalFiles : Nat
  processed : Nat
  skipped : Nat
  failed : List FailedFile
  duration : String
  totalSize : String
  savedSize : String
  compressionRatio : String
deriving Repr

/-- Models toFixed(2) on the compression-ratio quotient: round half-up at
two decimals.  Unlike the byte totals this quotient is not dyadic, so the
rational value stands for the IEEE double of the source; no claim settled
here depends on its last-digit rounding. -/
def fix2Rat (q : ℚ) : String :=
  let n : Int := (q * 100 + 1 / 2).floor
  if n < 0 then "-" ++ fix2Nat (Int.toNat (-n)) else fix2Nat (Int.toNat n)

/-- Embeds ImageConverter.buildResult (converter.ts lines 319-338); the
elapsed milliseconds stand for endTime minus startTime. -/
def buildResult (st : ConversionStats) (durationMs : Nat) : ConversionResult :=
  { totalFiles := st.totalFiles
    processed := st.processed
    skipped := st.skipped
    failed := st.failed
    duration := formatDuration durationMs
    totalSize := formatBytes st.totalBytes
    savedSize := formatBytes st.savedBytes
    compressionRatio :=
      if 0 < st.totalBytes then
        fix2Rat ((st.savedBytes : ℚ) / (st.totalBytes : ℚ) * 100) ++ "%"
      else "0%" }

/-- Embeds ImageConverter.skipFile (converter.ts lines 133-137): warn,
count the unit toward totalFiles and tally it as skipped. -/
def skipFileStats (st : ConversionStats) : ConversionStats :=
  { st with totalFiles := st.totalFiles + 1, skipped := st.skipped + 1 }

/-- Embeds ImageConverter.isSameFile (converter.ts lines 139-145): when
the resolved input and output paths coincide the unit is counted through
skipFile and the check reports true. -/
def isSameFileCheck (inputPath outputPath : String) (st : ConversionStats) :
    Bool × ConversionStats :=
  if resolvePath inputPath = resolvePath outputPath then (true, skipFileStats st)
  else (false, st)

/-- Embeds ImageConverter.resolveOutputPath (converter.ts lines 147-153). -/
def resolveOutputPath (inputPath : String) (outputDir : Option String) : String :=
  match outputDir with
  | some d => joinPath d (parseName inputPath ++ ".webp")
  | none => joinPath (dirname inputPath) (parseName inputPath ++ ".webp")

/-- Embeds ImageConverter.collectFileTask (converter.ts lines 83-97):
a non-image file input is counted through skipFile, a source/destination
collision is counted through isSameFile, and otherwise the task is
appended and totalFiles incremented. -/
def collectFileTask (inputPath : String) (outputDir : Option String)
    (st : ConversionStats) (tasks : List ConversionTask) :
    ConversionStats × List ConversionTask :=
  if isImageFile inputPath = false then (skipFileStats st, tasks)
  else
    match isSameFileCheck inputPath (resolveOutputPath inputPath outputDir) st with
    | (true, st2) => (st2, tasks)
    | (false, st2) =>
      ({ st2 with totalFiles := st2.totalFiles + 1 },
       tasks ++ [{ inputPath := inputPath
                   outputPath := resolveOutputPath inputPath outputDir }])

/-- Embeds the output-path computation for one directory entry
(converter.ts lines 116-122): same-directory mode writes beside the input,
separate-output mode mirrors the entry's relative subdirectory under the
output root. -/
def dirEntryOutputPath (inputDir : String) (outputDir : Option String)
    (file : String) : String :=
  match outputDir with
  | none => joinPath (dirname (joinPath inputDir file)) (parseName file ++ ".webp")
  | some out => joinPath (joinPath out (dirname file)) (parseName file ++ ".webp")

/-- Embeds the per-entry body of collectDirectoryTasks (converter.ts lines
113-130) given the output path computed by dirEntryOutputPath. -/
def collectDirEntry (inputDir : String) (outputDir : Option String)
    (acc : ConversionStats × List ConversionTask) (file : String) :
    ConversionStats × List ConversionTask :=
  match isSameFileCheck (joinPath inputDir file)
      (dirEntryOutputPath inputDir outputDir file) acc.1 with
  | (true, st2) => (st2, acc.2)
  | (false, st2) =>
    ({ st2 with totalFiles := st2.totalFiles + 1 },
     acc.2 ++ [{ inputPath := joinPath inputDir file
                 outputPath := dirEntryOutputPath inputDir outputDir file }])

/-- Embeds ImageConverter.collectDirectoryTasks (converter.ts lines
99-131) after its optional preflight: the directory listing (recursive or
not, as the readdir call returned it) is filtered to image files before
any counting, then each image entry is handled by collectDirEntry. -/
def collectDirectoryTasks (inputDir : String) (outputDir : Option String)
    (entries : List String) (st : ConversionStats)
    (tasks : List ConversionTask) : ConversionStats × List ConversionTask :=
  (entries.filter isImageFile).foldl (collectDirEntry inputDir outputDir) (st, tasks)

/-- One top-level input of runAll, pre-classified by the fs.stat call of
converter.ts lines 62-70: a regular file, a directory together with the
entry list its readdir returns, or anything else (which is run-fatal). -/
inductive RunInput where
  | file (p : String)
  | dir (p : String) (entries : List String)
  | other (p : String)

/-- Source string of the empty-run throw (converter.ts 74). -/
def noImagesMsg : String := "No valid image files found"

/-- Embeds the task-collection loop of runAll (converter.ts lines 60-71):
directory inputs with an explicit output directory run the preflight
(validatePaths) first, and a preflight failure aborts the whole run. -/
def collectAll (preflight : String → Except String Unit)
    (outputDir : Option String) :
    List RunInput → ConversionStats × List ConversionTask →
    Except String (ConversionStats × List ConversionTask)
  | [], acc => .ok acc
  | .file p :: rest, acc =>
    collectAll preflight outputDir rest (collectFileTask p outputDir acc.1 acc.2)
  | .dir p entries :: rest, acc =>
    if outputDir.isSome then
      match preflight p with
      | .error e => .error e
      | .ok _ =>
        collectAll preflight outputDir rest
          (collectDirectoryTasks p outputDir entries acc.1 acc.2)
    else
      collectAll preflight outputDir rest
        (collectDirectoryTasks p outputDir entries acc.1 acc.2)
  | .other p :: _, _ =>
    .error ("Input is neither a file nor a directory: " ++ p)

/-- The filesystem as an association list from paths to file metadata;
lookups take the most recent binding. -/
abbrev FS := List (String × FileInfo)

/-- Lookup of a path in the modelled filesystem. -/
def fsFind : FS → String → Option FileInfo
  | [], _ => none
  | e :: rest, p => if e.1 = p then some e.2 else fsFind rest p

/-- Creation or replacement of a path in the modelled filesystem, the
effect of the atomic rename onto the output path. -/
def fsInsert (fs : FS) (p : String) (fi : FileInfo) : FS := (p, fi) :: fs

/-- Result of fs.stat against the modelled filesystem. -/
def statOf (fs : FS) (p : String) : Except String FileInfo :=
  match fsFind fs p with
  | some fi => .ok fi
  | none => .error ("ENOENT: no such file or directory, stat " ++ p)

/-- Instantiates the per-task environment of convertImage from the
modelled filesystem, the codec behaviour (the webp size it would produce
for an input, none meaning a decode or encode error surfaced by the sharp
pipeline) and the run clock giving new files their mtime: access and stat
answer from the filesystem, mkdir and rename succeed, and the freshly
written temp file has the codec's size. -/
def mkTaskEnv (codec : String → Option Nat) (_now : Nat) (fs : FS)
    (inputPath outputPath : String) : TaskEnv :=
  { accessOutputOk := (fsFind fs outputPath).isSome
    statInput0 := statOf fs inputPath
    statOutput0 := statOf fs outputPath
    statInputSize :=
      match fsFind fs inputPath with
      | some fi => .ok fi.size
      | none => .error ("ENOENT: no such file or directory, stat " ++ inputPath)
    mkdirRes := .ok ()
    metadataSpace :=
      match codec inputPath with
      | some _ => .ok none
      | none => .error "Input file contains unsupported image format"
    toFileRes := .ok ()
    statTemp :=
      match codec inputPath with
      | some n => .ok n
      | none => .error "Input file contains unsupported image format"
    lstatOutput :=
      match fsFind fs outputPath with
      | some fi => .found fi.isSymlink
      | none => .enoent
    renameRes := .ok ()
    unlinkOk := true }

/-- Runs convertImage against the modelled filesystem and applies its one
visible effect: when the trace says the rename happened, the output path
now holds the validated temp file (the codec's bytes, stamped with the
run clock); otherwise the filesystem is unchanged. -/
def convertImageFS (codec : String → Option Nat) (now : Nat) (fs : FS)
    (inputPath outputPath : String) (st : ConversionStats) :
    FS × ConversionStats × FileConversionResult :=
  let r := convertImage (mkTaskEnv codec now fs inputPath outputPath)
    inputPath outputPath st
  (if r.2.2.renamed then
    match codec inputPath with
    | some n => fsInsert fs outputPath { size := n, mtime := now, isSymlink := false }
    | none => fs
   else fs,
   r.1, r.2.1)

/-- Sequential execution of a task list against the modelled filesystem:
the stats mutations of the source are serialized by the single-threaded
event loop, so the fold realizes exactly the observable stats and
filesystem evolution. -/
def runTasks (codec : String → Option Nat) (now : Nat) :
    List ConversionTask → FS → ConversionStats → FS × ConversionStats
  | [], fs, st => (fs, st)
  | t :: rest, fs, st =>
    let r := convertImageFS codec now fs t.inputPath t.outputPath st
    runTasks codec now rest r.1 r.2.1

/-- Slices a list into consecutive chunks of at most n elements, the
tasks.slice(i, i + maxConcurrent) pattern of processInBatches; the fuel
(always the list length) makes the recursion structural, and with a
positive n each round consumes at least one element, so the fuel never
runs out. -/
def chunkGo {α : Type} (fuel n : Nat) (l : List α) : List (List α) :=
  match fuel, l with
  | _, [] => []
  | 0, l => [l]
  | fuel + 1, l => l.take n :: chunkGo fuel n (l.drop n)

/-- The wave decomposition of a task list under a concurrency bound. -/
def chunkList {α : Type} (n : Nat) (l : List α) : List (List α) :=
  chunkGo l.length n l

/-- Embeds ImageConverter.processInBatches (converter.ts lines 295-317):
the task list is cut into consecutive waves of maxConcurrent tasks, each
wave runs under Promise.all with its stats mutations serialized by the
event loop, and the next wave only starts once the whole wave settled. -/
def processInBatchesFS (codec : String → Option Nat) (now : Nat)
    (maxConcurrent : Nat) (tasks : List ConversionTask) (fs : FS)
    (st : ConversionStats) : FS × ConversionStats :=
  (chunkList maxConcurrent tasks).foldl
    (fun acc wave => runTasks codec now wave acc.1 acc.2) (fs, st)

/-- Run-wide environment: the codec behaviour, the run clock, the elapsed
time fed to the report, the preflight outcome per input directory, and the
concurrency bound of the config. -/
structure RunEnv where
  codec : String → Option Nat
  now : Nat
  durationMs : Nat
  preflight : String → Except String Unit
  maxConcurrent : Nat

/-- Embeds ImageConverter.runAll (converter.ts lines 51-81): reset stats,
collect the tasks from every input, fail the run when totalFiles is zero,
process the tasks in batches and build the report. -/
def runAllModel (env : RunEnv) (fs0 : FS) (inputs : List RunInput)
    (outputDir : Option String) : Except String (FS × ConversionResult) :=
  match collectAll env.preflight outputDir inputs (initStats, []) with
  | .error e => .error e
  | .ok (st, tasks) =>
    if st.totalFiles = 0 then .error noImagesMsg
    else
      let r := processInBatchesFS env.codec env.now env.maxConcurrent tasks fs0 st
      .ok (r.1, buildResult r.2 env.durationMs)

/-! Helper lemmas about the atomic converter. -/

theorem convertImage_totalFiles (env : TaskEnv) (i o : String) (st : ConversionStats) :
    (convertImage env i o st).1.totalFiles = st.totalFiles := by
  unfold convertImage convFail
  (repeat' split) <;> rfl

theorem convertImage_sum (env : TaskEnv) (i o : String) (st : ConversionStats) :
    (convertImage env i o st).1.processed + (convertImage env i o st).1.skipped
      + (convertImage env i o st).1.failed.length
    = st.processed + st.skipped + st.failed.length + 1 := by
  unfold convertImage convFail
  (repeat' split) <;> simp <;> omega

theorem convertImage_outcome (env : TaskEnv) (i o : String) (st : ConversionStats) :
    ((convertImage env i o st).1 = { st with skipped := st.skipped + 1 }
      ∧ (convertImage env i o st).2.1 = { success := true, skipped := some true, error := none })
  ∨ (∃ a b, (convertImage env i o st).1
        = { st with processed := st.processed + 1, totalBytes := st.totalBytes + a
                    savedBytes := st.savedBytes + b }
      ∧ (convertImage env i o st).2.1 = { success := true, skipped := some false, error := none })
  ∨ (∃ m, (convertImage env i o st).1 = { st with failed := st.failed ++ [{ file := i, error := m }] }
      ∧ (convertImage env i o st).2.1 = { success := false, skipped := none, error := some m }) := by
  unfold convertImage convFail
  (repeat' split)
  · exact Or.inl ⟨rfl, rfl⟩
  all_goals try exact Or.inr (Or.inr ⟨_, rfl, rfl⟩)
  all_goals exact Or.inr (Or.inl ⟨_, _, rfl, rfl⟩)

theorem convertImageFS_stats (codec : String → Option Nat) (now : Nat) (fs : FS)
    (i o : String) (st : ConversionStats) :
    (convertImageFS codec now fs i o st).2.1 = (convertImage (mkTaskEnv codec now fs i o) i o st).1 := rfl

theorem runTasks_cons (codec : String → Option Nat) (now : Nat) (t : ConversionTask)
    (rest : List ConversionTask) (fs : FS) (st : ConversionStats) :
    runTasks codec now (t :: rest) fs st
    = runTasks codec now rest (convertImageFS codec now fs t.inputPath t.outputPath st).1
        (convertImageFS codec now fs t.inputPath t.outputPath st).2.1 := rfl

theorem runTasks_totalFiles (codec : String → Option Nat) (now : Nat) :
    ∀ (tasks : List ConversionTask) (fs : FS) (st : ConversionStats),
      (runTasks codec now tasks fs st).2.totalFiles = st.totalFiles := by
  intro tasks
  induction tasks with
  | nil => intro fs st; rfl
  | cons t rest ih =>
    intro fs st
    rw [runTasks_cons, ih, convertImageFS_stats, convertImage_totalFiles]

theorem runTasks_sum (codec : String → Option Nat) (now : Nat) :
    ∀ (tasks : List ConversionTask) (fs : FS) (st : ConversionStats),
      (runTasks codec now tasks fs st).2.processed + (runTasks codec now tasks fs st).2.skipped
        + (runTasks codec now tasks fs st).2.failed.length
      = st.processed + st.skipped + st.failed.length + tasks.length := by
  intro tasks
  induction tasks with
  | nil => intro fs st; rfl
  | cons t rest ih =>
    intro fs st
    rw [runTasks_cons, ih, convertImageFS_stats]
    have h := convertImage_sum (mkTaskEnv codec now fs t.inputPath t.outputPath) t.inputPath t.outputPath st
    simp only [List.length_cons]
    omega

/-! Helper lemmas about the wave decomposition. -/

theorem chunkGo_zero_join {α : Type} :
    ∀ (fuel : Nat) (l : List α), (chunkGo fuel 0 l).flatten = l := by
  intro fuel
  induction fuel with
  | zero => intro l; cases l <;> simp [chunkGo]
  | succ fuel ih =>
    intro l
    cases l with
    | nil => simp [chunkGo]
    | cons a l' => simpa [chunkGo] using ih (a :: l')

theorem chunkGo_join {α : Type} :
    ∀ (fuel n : Nat) (l : List α), 1 ≤ n → l.length ≤ fuel →
      (chunkGo fuel n l).flatten = l := by
  intro fuel
  induction fuel with
  | zero =>
    intro n l _ hl
    have : l = [] := List.length_eq_zero.mp (Nat.le_zero.mp hl)
    subst this
    simp [chunkGo]
  | succ fuel ih =>
    intro n l hn hl
    cases l with
    | nil => simp [chunkGo]
    | cons a l' =>
      have hdrop : (List.drop n (a :: l')).length ≤ fuel := by
        simp only [List.length_drop, List.length_cons] at *
        omega
      simp only [chunkGo, List.flatten_cons]
      rw [ih n _ hn hdrop, List.take_append_drop]

theorem chunkList_join {α : Type} (n : Nat) (l : List α) :
    (chunkList n l).flatten = l := by
  cases n with
  | zero => exact chunkGo_zero_join l.length l
  | succ n => exact chunkGo_join l.length (n + 1) l (Nat.succ_le_succ (Nat.zero_le n)) (Nat.le_refl _)

theorem chunkGo_mem {α : Type} :
    ∀ (fuel n : Nat) (l : List α), 1 ≤ n → l.length ≤ fuel →
      ∀ w ∈ chunkGo fuel n l, w ≠ [] ∧ w.length ≤ n := by
  intro fuel
  induction fuel with
  | zero =>
    intro n l _ hl
    have : l = [] := List.length_eq_zero.mp (Nat.le_zero.mp hl)
    subst this
    simp [chunkGo]
  | succ fuel ih =>
    intro n l hn hl
    cases l with
    | nil => simp [chunkGo]
    | cons a l' =>
      intro w hw
      simp only [chunkGo, List.mem_cons] at hw
      rcases hw with h | h
      · subst h
        cases n with
        | zero => omega
        | succ m =>
          exact ⟨by simp, List.length_take_le (m + 1) (a :: l')⟩
      · have hdrop : (List.drop n (a :: l')).length ≤ fuel := by
          simp only [List.length_drop, List.length_cons] at *
          omega
        exact ih n _ hn hdrop w h

theorem runTasks_append (codec : String → Option Nat) (now : Nat) :
    ∀ (l1 l2 : List ConversionTask) (fs : FS) (st : ConversionStats),
      runTasks codec now (l1 ++ l2) fs st
      = runTasks codec now l2 (runTasks codec now l1 fs st).1 (runTasks codec now l1 fs st).2 := by
  intro l1
  induction l1 with
  | nil => intro l2 fs st; rfl
  | cons t rest ih =>
    intro l2 fs st
    simp only [List.cons_append, runTasks_cons]
    exact ih l2 _ _

theorem foldWaves_eq_runTasks (codec : String → Option Nat) (now : Nat) :
    ∀ (waves : List (List ConversionTask)) (fs : FS) (st : ConversionStats),
      waves.foldl (fun acc wave => runTasks codec now wave acc.1 acc.2) (fs, st)
      = runTasks codec now waves.flatten fs st := by
  intro waves
  induction waves with
  | nil => intro fs st; rfl
  | cons w ws ih =>
    intro fs st
    simp only [List.foldl_cons, List.flatten_cons]
    rw [runTasks_append]
    exact ih (runTasks codec now w fs st).1 (runTasks codec now w fs st).2

theorem processInBatchesFS_eq_runTasks (codec : String → Option Nat) (now : Nat)
    (maxConcurrent : Nat) (tasks : List ConversionTask) (fs : FS) (st : ConversionStats) :
    processInBatchesFS codec now maxConcurrent tasks fs st = runTasks codec now tasks fs st := by
  unfold processInBatchesFS
  rw [foldWaves_eq_runTasks, chunkList_join]

/-! Helper lemmas about task discovery. -/

/-- Invariant maintained by task discovery: every unit counted toward
totalFiles is either an appended task or a skip-counted input, and no
conversion has run yet. -/
def DiscInv (st : ConversionStats) (tasks : List ConversionTask) : Prop :=
  st.totalFiles = st.skipped + tasks.length ∧ st.processed = 0 ∧ st.failed = []

theorem isSameFileCheck_spec (i o : String) (st : ConversionStats) :
    isSameFileCheck i o st = (true, skipFileStats st)
    ∨ isSameFileCheck i o st = (false, st) := by
  unfold isSameFileCheck
  split
  · exact Or.inl rfl
  · exact Or.inr rfl

theorem collectFileTask_inv (p : String) (od : Option String)
    (st : ConversionStats) (tasks : List ConversionTask) (h : DiscInv st tasks) :
    DiscInv (collectFileTask p od st tasks).1 (collectFileTask p od st tasks).2 := by
  obtain ⟨h1, h2, h3⟩ := h
  unfold collectFileTask
  split
  · exact ⟨by simp [skipFileStats]; omega, h2, h3⟩
  · rcases isSameFileCheck_spec p (resolveOutputPath p od) st with h | h <;>
      rw [h] <;> dsimp only
    · exact ⟨by simp [skipFileStats]; omega, h2, h3⟩
    · exact ⟨by simp; omega, h2, h3⟩

theorem collectDirEntry_inv (d : String) (od : Option String)
    (acc : ConversionStats × List ConversionTask) (f : String)
    (h : DiscInv acc.1 acc.2) :
    DiscInv (collectDirEntry d od acc f).1 (collectDirEntry d od acc f).2 := by
  obtain ⟨h1, h2, h3⟩ := h
  unfold collectDirEntry
  rcases isSameFileCheck_spec (joinPath d f) (dirEntryOutputPath d od f) acc.1 with h | h <;>
    rw [h] <;> dsimp only
  · exact ⟨by simp [skipFileStats]; omega, h2, h3⟩
  · exact ⟨by simp; omega, h2, h3⟩

theorem foldl_collectDirEntry_inv (d : String) (od : Option String) :
    ∀ (entries : List String) (acc : ConversionStats × List ConversionTask),
      DiscInv acc.1 acc.2 →
      DiscInv (entries.foldl (collectDirEntry d od) acc).1
        (entries.foldl (collectDirEntry d od) acc).2 := by
  intro entries
  induction entries with
  | nil => intro acc h; exact h
  | cons f rest ih =>
    intro acc h
    exact ih (collectDirEntry d od acc f) (collectDirEntry_inv d od acc f h)

theorem collectDirectoryTasks_inv (d : String) (od : Option String)
    (entries : List String) (st : ConversionStats) (tasks : List ConversionTask)
    (h : DiscInv st tasks) :
    DiscInv (collectDirectoryTasks d od entries st tasks).1
      (collectDirectoryTasks d od entries st tasks).2 :=
  foldl_collectDirEntry_inv d od (entries.filter isImageFile) (st, tasks) h

theorem collectAll_inv (pf : String → Except String Unit) (od : Option String) :
    ∀ (inputs : List RunInput) (acc : ConversionStats × List ConversionTask)
      (st' : ConversionStats) (tasks' : List ConversionTask),
      DiscInv acc.1 acc.2 → collectAll pf od inputs acc = .ok (st', tasks') →
      DiscInv st' tasks' := by
  intro inputs
  induction inputs with
  | nil =>
    intro acc st' tasks' h hc
    obtain ⟨rfl, rfl⟩ : acc.1 = st' ∧ acc.2 = tasks' := by
      cases acc
      simpa [collectAll, Prod.ext_iff] using hc
    exact h
  | cons inp rest ih =>
    intro acc st' tasks' h hc
    cases inp with
    | file p =>
      exact ih _ st' tasks' (collectFileTask_inv p od acc.1 acc.2 h) hc
    | dir p entries =>
      by_cases hod : od.isSome = true
      · simp only [collectAll, hod, if_true] at hc
        cases hpf : pf p with
        | error e => rw [hpf] at hc; exact absurd hc (by simp)
        | ok u =>
          rw [hpf] at hc
          exact ih _ st' tasks' (collectDirectoryTasks_inv p od entries acc.1 acc.2 h) hc
      · simp only [collectAll, hod, if_false] at hc
        exact ih _ st' tasks' (collectDirectoryTasks_inv p od entries acc.1 acc.2 h) hc
    | other p =>
      exact absurd hc (by simp [collectAll])

theorem runAllModel_ok (env : RunEnv) (fs0 : FS) (inputs : List RunInput)
    (od : Option String) (fsr : FS) (res : ConversionResult)
    (h : runAllModel env fs0 inputs od = .ok (fsr, res)) :
    ∃ st tasks, collectAll env.preflight od inputs (initStats, []) = .ok (st, tasks)
      ∧ st.totalFiles ≠ 0
      ∧ fsr = (processInBatchesFS env.codec env.now env.maxConcurrent tasks fs0 st).1
      ∧ res = buildResult
          (processInBatchesFS env.codec env.now env.maxConcurrent tasks fs0 st).2
          env.durationMs := by
  unfold runAllModel at h
  cases hc : collectAll env.preflight od inputs (initStats, []) with
  | error e => rw [hc] at h; exact absurd h (by simp)
  | ok p =>
    obtain ⟨st, tasks⟩ := p
    rw [hc] at h
    dsimp only at h
    by_cases h0 : st.totalFiles = 0
    · rw [if_pos h0] at h
      exact absurd h (by simp)
    · rw [if_neg h0] at h
      obtain ⟨h1, h2⟩ := Prod.mk.injEq .. ▸ Except.ok.inj h
      exact ⟨st, tasks, rfl, h0, h1.symm, h2.symm⟩

/-- C1: for every completed run, the final statistics reconcile exactly:
totalFiles equals processed plus skipped plus the number of failures;
every unit counted toward totalFiles (appended task, skipped non-image
file input, or source/destination collision) ends in exactly one tally. -/
theorem runAll_accounting (env : RunEnv) (fs0 : FS) (inputs : List RunInput)
    (od : Option String) (fsr : FS) (res : ConversionResult)
    (h : runAllModel env fs0 inputs od = .ok (fsr, res)) :
    res.totalFiles = res.processed + res.skipped + res.failed.length := by
  obtain ⟨st, tasks, hc, _h0, _hfs, hres⟩ := runAllModel_ok env fs0 inputs od fsr res h
  have hinv : DiscInv st tasks :=
    collectAll_inv env.preflight od inputs (initStats, []) st tasks
      ⟨rfl, rfl, rfl⟩ hc
  obtain ⟨htf, hp, hf⟩ := hinv
  subst hres
  show (processInBatchesFS env.codec env.now env.maxConcurrent tasks fs0 st).2.totalFiles
    = (processInBatchesFS _ _ _ tasks fs0 st).2.processed
      + (processInBatchesFS _ _ _ tasks fs0 st).2.skipped
      + (processInBatchesFS _ _ _ tasks fs0 st).2.failed.length
  rw [processInBatchesFS_eq_runTasks, runTasks_totalFiles, runTasks_sum]
  rw [htf, hp, hf]
  simp

/-- Closed instance of the C1 accounting theorem: a one-file run whose
codec fails still reconciles (totalFiles 1 = 0 processed + 0 skipped + 1
failed). -/
def fsW1 : FS := [("a.png", { size := 10, mtime := 1, isSymlink := false })]

def envW1 : RunEnv :=
  { codec := fun _ => none, now := 5, durationMs := 0
    preflight := fun _ => .ok (), maxConcurrent := 4 }

def resW1 : ConversionResult :=
  { totalFiles := 1, processed := 0, skipped := 0
    failed := [{ file := "a.png", error := "Input file contains unsupported image format" }]
    duration := "0s", totalSize := "0.00 B", savedSize := "0.00 B"
    compressionRatio := "0%" }

theorem runAll_accounting_witness :
    resW1.totalFiles = resW1.processed + resW1.skipped + resW1.failed.length :=
  runAll_accounting envW1 fsW1 [.file "a.png"] none fsW1 resW1 rfl

/-- C3: the skip decision returns false (skip) exactly when the output
path exists, both stats succeed, the output is non-empty and the output is
at least as new as the input; in every other case, including a missing
output and any stat error, it returns true (must convert, fail open). -/
theorem shouldProcessImage_spec (acc : Bool) (si so : Except String FileInfo) :
    shouldProcessImage acc si so = false ↔
      acc = true ∧ ∃ i o, si = .ok i ∧ so = .ok o
        ∧ o.size ≠ 0 ∧ i.mtime ≤ o.mtime := by
  unfold shouldProcessImage
  cases acc with
  | false => simp
  | true =>
    simp only [Bool.true_eq_false, if_false]
    cases si with
    | error m => simp
    | ok i =>
      cases so with
      | error m => simp
      | ok o =>
        simp [Nat.not_lt]
        tauto

/-- C6: the scheduler's wave decomposition under the clamped concurrency
bound of the config is a partition of the task list into consecutive
non-empty waves of at most maxConcurrent tasks, the bound is always at
least one, and running the waves sequentially to completion (the hard
barrier of processInBatches) computes exactly the sequential execution of
the full task list. -/
theorem scheduler_waves (q : Int) (cpus : Nat) (tasks : List ConversionTask)
    (codec : String → Option Nat) (now : Nat) (fs : FS) (st : ConversionStats) :
    1 ≤ (mkConfig q cpus).maxConcurrent
    ∧ (chunkList (mkConfig q cpus).maxConcurrent tasks).flatten = tasks
    ∧ (∀ w ∈ chunkList (mkConfig q cpus).maxConcurrent tasks,
        w ≠ [] ∧ w.length ≤ (mkConfig q cpus).maxConcurrent)
    ∧ processInBatchesFS codec now (mkConfig q cpus).maxConcurrent tasks fs st
      = runTasks codec now tasks fs st := by
  have h1 : 1 ≤ (mkConfig q cpus).maxConcurrent := Nat.le_max_left 1 _
  exact ⟨h1, chunkList_join _ tasks,
    chunkGo_mem tasks.length _ tasks h1 (Nat.le_refl _),
    processInBatchesFS_eq_runTasks codec now _ tasks fs st⟩

/-- C2: whenever convertImage ends in failure, the error message is both
returned and recorded as a FailedFile against the input path, the rename
never happened (the final output path is untouched), cleanup unlink was
attempted exactly when the temp path had been assigned, and the outcome of
the cleanup unlink (swallowed errors) changes neither the statistics nor
the returned result; conversely the rename only ever happens on a success
whose temp file passed the non-empty validation. -/
theorem convertImage_failure_contained (env : TaskEnv) (i o : String)
    (st : ConversionStats) :
    ((convertImage env i o st).2.1.success = false →
      ∃ m, (convertImage env i o st).2.1.error = some m
        ∧ (convertImage env i o st).1.failed = st.failed ++ [{ file := i, error := m }]
        ∧ (convertImage env i o st).2.2.renamed = false
        ∧ (convertImage env i o st).2.2.unlinkAttempted
          = (convertImage env i o st).2.2.tempAssigned)
    ∧ (∀ b, (convertImage { env with unlinkOk := b } i o st).1
          = (convertImage env i o st).1
        ∧ (convertImage { env with unlinkOk := b } i o st).2.1
          = (convertImage env i o st).2.1)
    ∧ ((convertImage env i o st).2.2.renamed = true →
        (convertImage env i o st).2.1.success = true
        ∧ ∃ n, env.statTemp = .ok n ∧ n ≠ 0 ∧ env.renameRes = .ok ()) := by
  refine ⟨?_, ?_, ?_⟩
  · unfold convertImage convFail
    (repeat' split) <;> intro h <;> simp_all
  · intro b
    unfold convertImage convFail
    dsimp only
    (repeat' split) <;> simp_all
  · unfold convertImage convFail
    (repeat' split) <;> intro h <;> simp_all

def envC2 : TaskEnv :=
  { accessOutputOk := false
    statInput0 := .error "ENOENT: no such file or directory, stat out.webp"
    statOutput0 := .error "ENOENT: no such file or directory, stat out.webp"
    statInputSize := .ok 10
    mkdirRes := .ok ()
    metadataSpace := .error "Input file contains unsupported image format"
    toFileRes := .ok ()
    statTemp := .error "ENOENT"
    lstatOutput := .enoent
    renameRes := .ok ()
    unlinkOk := true }

/-- Closed instance of the C2 containment theorem at a codec failure. -/
theorem convertImage_failure_contained_witness :
    ∃ m, (convertImage envC2 "in.png" "out.webp" initStats).2.1.error = some m
      ∧ (convertImage envC2 "in.png" "out.webp" initStats).1.failed
        = initStats.failed ++ [{ file := "in.png", error := m }]
      ∧ (convertImage envC2 "in.png" "out.webp" initStats).2.2.renamed = false
      ∧ (convertImage envC2 "in.png" "out.webp" initStats).2.2.unlinkAttempted
        = (convertImage envC2 "in.png" "out.webp" initStats).2.2.tempAssigned :=
  (convertImage_failure_contained envC2 "in.png" "out.webp" initStats).1 (by decide)

def envC7 : TaskEnv :=
  { accessOutputOk := true
    statInput0 := .ok { size := 10, mtime := 9, isSymlink := false }
    statOutput0 := .ok { size := 4, mtime := 2, isSymlink := false }
    statInputSize := .ok 10
    mkdirRes := .ok ()
    metadataSpace := .ok none
    toFileRes := .ok ()
    statTemp := .ok 5
    lstatOutput := .errOther "EACCES: permission denied, lstat out.webp"
    renameRes := .ok ()
    unlinkOk := true }

/-- C7 counterexample: an lstat failure on the output path whose code is
not ENOENT (here EACCES) is neither a symlink finding nor a missing file,
yet the conversion does not proceed: it fails the file with that error and
never renames, refuting the claim that any non-symlink stat outcome lets
the conversion proceed. -/
theorem symlink_guard_counterexample :
    envC7.lstatOutput ≠ .found true
    ∧ envC7.lstatOutput ≠ .enoent
    ∧ (convertImage envC7 "in.png" "out.webp" initStats).2.1.success = false
    ∧ (convertImage envC7 "in.png" "out.webp" initStats).2.1.error
      = some "EACCES: permission denied, lstat out.webp"
    ∧ (convertImage envC7 "in.png" "out.webp" initStats).2.2.renamed = false := by
  refine ⟨by decide, by decide, ?_, ?_, ?_⟩ <;> decide

/-- C7 (amended): when the conversion reaches the output guard (skip
policy said convert and every prior step succeeded, with a validated
non-empty temp file), a pre-existing symlink at the output path fails the
file with the RefusedSymlinkOverwrite message before any rename, leaving
the output untouched; an lstat failure with a code other than ENOENT also
fails the file, carrying that error; only a non-symlink finding or an
ENOENT miss lets the conversion proceed to the rename. -/
theorem convertImage_symlink_guard (env : TaskEnv) (i o : String)
    (st : ConversionStats)
    (hneed : shouldProcessImage env.accessOutputOk env.statInput0 env.statOutput0 = true)
    (hsize : ∃ sz, env.statInputSize = .ok sz)
    (hmkdir : env.mkdirRes = .ok ())
    (hmeta : ∃ sp, env.metadataSpace = .ok sp)
    (hto : env.toFileRes = .ok ())
    (htmp : ∃ n, env.statTemp = .ok n ∧ n ≠ 0) :
    (env.lstatOutput = .found true →
        (convertImage env i o st).2.1
          = { success := false, skipped := none, error := some symlinkMsg }
        ∧ (convertImage env i o st).1.failed
          = st.failed ++ [{ file := i, error := symlinkMsg }]
        ∧ (convertImage env i o st).2.2.renamed = false)
    ∧ (∀ m, env.lstatOutput = .errOther m →
        (convertImage env i o st).2.1.success = false
        ∧ (convertImage env i o st).2.1.error = some m
        ∧ (convertImage env i o st).2.2.renamed = false)
    ∧ ((env.lstatOutput = .found false ∨ env.lstatOutput = .enoent) →
        env.renameRes = .ok () →
        (convertImage env i o st).2.1.success = true
        ∧ (convertImage env i o st).2.2.renamed = true) := by
  obtain ⟨sz, hsz⟩ := hsize
  obtain ⟨sp, hsp⟩ := hmeta
  obtain ⟨n, hn, hne⟩ := htmp
  unfold convertImage convFail
  simp only [hneed, hsz, hmkdir, hsp, hto, hn, Bool.true_eq_false, if_false, hne]
  refine ⟨?_, ?_, ?_⟩
  · intro hl
    simp [hl]
  · intro m hl
    simp [hl]
  · rintro (hl | hl) hren <;> simp [hl, hren]

def envC7w : TaskEnv :=
  { envC7 with lstatOutput := .found true }

/-- Closed instance of the amended C7 theorem at a symlinked output. -/
theorem convertImage_symlink_guard_witness :
    (convertImage envC7w "in.png" "out.webp" initStats).2.1
      = { success := false, skipped := none, error := some symlinkMsg }
    ∧ (convertImage envC7w "in.png" "out.webp" initStats).1.failed
      = initStats.failed ++ [{ file := "in.png", error := symlinkMsg }]
    ∧ (convertImage envC7w "in.png" "out.webp" initStats).2.2.renamed = false :=
  (convertImage_symlink_guard envC7w "in.png" "out.webp" initStats
    (by decide) ⟨10, rfl⟩ rfl ⟨none, rfl⟩ rfl ⟨5, rfl, by decide⟩).1 rfl

/-! Scenario B: a directory with two PNG files and one non-image .txt
file, non-recursive, same-directory mode, with a codec that succeeds. -/

def fsB : FS :=
  [("d/a.png", { size := 100, mtime := 1, isSymlink := false }),
   ("d/b.png", { size := 100, mtime := 1, isSymlink := false }),
   ("d/note.txt", { size := 5, mtime := 1, isSymlink := false })]

def envB : RunEnv :=
  { codec := fun _ => some 40, now := 10, durationMs := 0
    preflight := fun _ => .ok (), maxConcurrent := 4 }

def inputsB : List RunInput := [.dir "d" ["a.png", "b.png", "note.txt"]]

/-- C4 counterexample: on a directory holding 2 PNGs and 1 non-image .txt
with recursive=false, the run completes with totalFiles 2, processed 2 and
skipped 0, not the claimed totalFiles 3 and skipped 1: collectDirectoryTasks
filters non-image entries out before any counting. -/
theorem dir_nonimage_counterexample :
    (runAllModel envB fsB inputsB none).toOption.map
        (fun r => (r.2.totalFiles, r.2.processed, r.2.skipped)) = some (2, 2, 0)
    ∧ (runAllModel envB fsB inputsB none).toOption.map
        (fun r => (r.2.totalFiles, r.2.processed, r.2.skipped)) ≠ some (3, 2, 1) :=
  ⟨by decide, by decide⟩

/-- C4 (amended): a non-image file found during a directory walk is
silently filtered out and counted nowhere: the same scenario yields
totalFiles 2, processed 2, skipped 0, with both PNGs discovered as tasks
and the .txt absent from the task list. -/
theorem dir_nonimage_amended :
    (collectAll envB.preflight none inputsB (initStats, [])).toOption.map
        (fun p => p.2) = some
          [{ inputPath := "d/a.png", outputPath := "d/a.webp" },
           { inputPath := "d/b.png", outputPath := "d/b.webp" }]
    ∧ (runAllModel envB fsB inputsB none).toOption.map
        (fun r => (r.2.totalFiles, r.2.processed, r.2.skipped, r.2.failed.length))
      = some (2, 2, 0, 0) :=
  ⟨by decide, by decide⟩

/-- C5 counterexample: a run over a single non-image file input discovers
zero conversion tasks, yet runAll does not fail with NoImagesFound: the
guard tests totalFiles (which skipFile incremented to 1), so the run
completes with totalFiles 1, skipped 1 and produces a report. -/
theorem noImagesFound_counterexample :
    (collectAll envB.preflight none [.file "note.txt"] (initStats, [])).toOption.map
        (fun p => p.2) = some []
    ∧ (runAllModel envB [("note.txt", { size := 5, mtime := 1, isSymlink := false })]
        [.file "note.txt"] none).toOption.map
        (fun r => (r.2.totalFiles, r.2.processed, r.2.skipped)) = some (1, 0, 1) :=
  ⟨by decide, by decide⟩

/-- C5 (amended): runAll fails with the NoImagesFound error exactly on the
guard totalFiles = 0, that is when discovery appended no task and counted
no skipped input; an empty directory input satisfies this and fails the
run with no report. -/
theorem noImagesFound_totalFiles_zero (env : RunEnv) (fs0 : FS)
    (inputs : List RunInput) (od : Option String) (st : ConversionStats)
    (tasks : List ConversionTask)
    (hc : collectAll env.preflight od inputs (initStats, []) = .ok (st, tasks))
    (h0 : st.totalFiles = 0) :
    runAllModel env fs0 inputs od = .error noImagesMsg := by
  unfold runAllModel
  rw [hc]
  dsimp only
  rw [if_pos h0]

/-- Closed instance of the amended C5 theorem: an empty directory input
fails the run with the NoImagesFound error. -/
theorem noImagesFound_totalFiles_zero_witness :
    runAllModel envB fsB [.dir "d" []] none = .error noImagesMsg :=
  noImagesFound_totalFiles_zero envB fsB [.dir "d" []] none initStats [] rfl rfl

/-- C9 counterexample: the byte count 500 is under 1024 yet renders as
500.00 B, with two-decimal precision, not as the whole number 500 B the
claim requires for plain bytes. -/
theorem formatBytes_plain_counterexample :
    formatBytes 500 = "500.00 B" ∧ formatBytes 500 ≠ "500 B" :=
  ⟨by decide, by decide⟩

theorem twoDigits_length : ∀ m, m < 100 → (twoDigits m).length = 2 := by decide

theorem formatBytesGo_le : ∀ (fuel b u : Nat), u ≤ 3 → formatBytesGo fuel b u ≤ 3 := by
  intro fuel
  induction fuel with
  | zero => intro b u h; exact h
  | succ fuel ih =>
    intro b u h
    unfold formatBytesGo
    split
    · next hcond =>
      have hb : byteUnits.length = 4 := rfl
      exact ih b (u + 1) (by omega)
    · exact h

/-- C9 (amended): every byte count renders as a number with exactly two
decimals followed by one of the units B, KB, MB or GB; in particular a
count under 1024 renders as its exact value with two decimals in unit B,
not as a bare whole number. -/
theorem formatBytes_two_decimals (n : Nat) :
    (∃ u k, u ∈ byteUnits
      ∧ formatBytes (n : Int) = fix2Nat k ++ " " ++ u
      ∧ (twoDigits (k % 100)).length = 2)
    ∧ (n < 1024 → formatBytes (n : Int) = toString n ++ ".00 B") := by
  constructor
  · have hnn : ¬((n : Int) < 0) := by omega
    have hto : (n : Int).toNat = n := Int.toNat_natCast n
    have hu : formatBytesGo 3 n 0 ≤ 3 := formatBytesGo_le 3 n 0 (by omega)
    refine ⟨byteUnits.getD (formatBytesGo 3 n 0) "B",
      (n * 200 + 2 ^ (10 * formatBytesGo 3 n 0)) / 2 ^ (10 * formatBytesGo 3 n 0 + 1),
      ?_, ?_, ?_⟩
    · interval_cases h : formatBytesGo 3 n 0 <;> simp [byteUnits]
    · unfold formatBytes
      rw [if_neg hnn, hto]
    · exact twoDigits_length _ (Nat.mod_lt _ (by omega))
  · intro hlt
    have hnn : ¬((n : Int) < 0) := by omega
    have hto : (n : Int).toNat = n := Int.toNat_natCast n
    have hu : formatBytesGo 3 n 0 = 0 := by
      have hcond : ¬(2 ^ (10 * 0 + 10) ≤ n ∧ 0 < byteUnits.length - 1) := by
        intro h
        have h1 := h.1
        norm_num at h1
        omega
      unfold formatBytesGo
      rw [if_neg hcond]
    unfold formatBytes
    rw [if_neg hnn, hto, hu]
    have hk : (n * 200 + 2 ^ (10 * 0)) / 2 ^ (10 * 0 + 1) = n * 100 := by
      norm_num
      omega
    rw [hk]
    unfold fix2Nat
    have h1 : n * 100 / 100 = n := by omega
    have h2 : n * 100 % 100 = 0 := by omega
    rw [h1, h2]
    apply String.ext
    simp only [String.data_append, List.append_assoc]
    exact congrArg (fun l => (toString n).data ++ l) rfl

/-- Closed instance of the amended C9 theorem at 500 bytes. -/
theorem formatBytes_two_decimals_witness :
    500 < 1024 ∧ formatBytes (500 : Int) = toString 500 ++ ".00 B" :=
  ⟨by decide, (formatBytes_two_decimals 500).2 (by decide)⟩

/-- C10: the disk-space preflight fails open: whenever the statfs behind
getDiskSpace errors, the available space is treated as unlimited, so the
insufficient-space comparison never trips for any required size and a
preflight whose directory and access checks pass succeeds outright; the
read-access check of the same preflight, by contrast, stays run-fatal and
propagates its error. -/
theorem diskSpace_fail_open (env : PreflightEnv) :
    (∀ m, env.statfsRes = .error m →
      ∀ required : ℚ, spaceInsufficient (getDiskSpace env.statfsRes) required = false)
    ∧ (∀ m, env.statfsRes = .error m → env.inputIsDir = true →
        env.accessRead = .ok () → env.mkdirOut = .ok () → env.accessWrite = .ok () →
        validatePaths env = .ok ())
    ∧ (env.inputIsDir = true → ∀ e, env.accessRead = .error e →
        validatePaths env = .error e) := by
  refine ⟨?_, ?_, ?_⟩
  · intro m hm required
    unfold spaceInsufficient getDiskSpace
    rw [hm]
  · intro m hm hdir hr hmk hw
    unfold validatePaths
    rw [hdir, hr, hmk, hw]
    simp only [Bool.true_eq_false, if_false]
    unfold spaceInsufficient getDiskSpace
    rw [hm]
    rfl
  · intro hdir e he
    unfold validatePaths
    rw [hdir, he]
    simp

def envC10 : PreflightEnv :=
  { inputIsDir := true, accessRead := .ok (), mkdirOut := .ok ()
    accessWrite := .ok (), statfsRes := .error "ENOSYS: statfs unavailable"
    dirSize := 1000000000 }

/-- Closed instance of the C10 theorem: with statfs failing, a preflight
over a huge input directory still succeeds. -/
theorem diskSpace_fail_open_witness : validatePaths envC10 = .ok () :=
  (diskSpace_fail_open envC10).2.1 "ENOSYS: statfs unavailable" rfl rfl rfl rfl rfl

/-! Helper lemmas for the idempotence claim: after a fully successful run
every task satisfies the skip condition, so a second run converts
nothing. -/

/-- A task whose skip decision will say skip: input and output both
present, output non-empty and at least as new as the input. -/
def SkipReady (fs : FS) (t : ConversionTask) : Prop :=
  ∃ fin fout, fsFind fs t.inputPath = some fin ∧ fsFind fs t.outputPath = some fout
    ∧ fout.size ≠ 0 ∧ fin.mtime ≤ fout.mtime

theorem convertImageFS_cases (codec : String → Option Nat) (now : Nat) (fs : FS)
    (i o : String) (st : ConversionStats) :
    (shouldProcessImage (fsFind fs o).isSome (statOf fs i) (statOf fs o) = false
      ∧ convertImageFS codec now fs i o st
        = (fs, { st with skipped := st.skipped + 1 },
           { success := true, skipped := some true, error := none }))
    ∨ (∃ n fin, codec i = some n ∧ n ≠ 0 ∧ fsFind fs i = some fin
        ∧ convertImageFS codec now fs i o st
          = (fsInsert fs o { size := n, mtime := now, isSymlink := false },
             { st with processed := st.processed + 1
                       totalBytes := st.totalBytes + fin.size
                       savedBytes := st.savedBytes + ((fin.size : Int) - (n : Int)) },
             { success := true, skipped := some false, error := none }))
    ∨ (∃ m, convertImageFS codec now fs i o st
        = (fs, { st with failed := st.failed ++ [{ file := i, error := m }] },
           { success := false, skipped := none, error := some m })) := by
  by_cases hsp : shouldProcessImage (fsFind fs o).isSome (statOf fs i) (statOf fs o) = false
  · left
    refine ⟨hsp, ?_⟩
    simp [convertImageFS, convertImage, mkTaskEnv, hsp]
  · rw [Bool.not_eq_false] at hsp
    cases hfi : fsFind fs i with
    | none =>
      right; right
      refine ⟨"ENOENT: no such file or directory, stat " ++ i, ?_⟩
      simp only [statOf, hfi] at hsp
      simp [convertImageFS, convertImage, mkTaskEnv, convFail, statOf, hsp, hfi]
    | some fin =>
      cases hcod : codec i with
      | none =>
        right; right
        refine ⟨"Input file contains unsupported image format", ?_⟩
        simp only [statOf, hfi] at hsp
        simp [convertImageFS, convertImage, mkTaskEnv, convFail, statOf, hsp, hfi, hcod]
      | some n =>
        by_cases hn0 : n = 0
        · right; right
          refine ⟨emptyOutputMsg, ?_⟩
          simp only [statOf, hfi] at hsp
          simp [convertImageFS, convertImage, mkTaskEnv, convFail, statOf, hsp, hfi, hcod, hn0]
        · cases hfo : fsFind fs o with
          | none =>
            right; left
            refine ⟨n, fin, rfl, hn0, rfl, ?_⟩
            simp [convertImageFS, convertImage, mkTaskEnv, convFail, statOf, shouldProcessImage,
              hfi, hcod, hn0, hfo]
          | some fo =>
            simp only [statOf, hfi, hfo, Option.isSome_some] at hsp
            cases hsym : fo.isSymlink with
            | true =>
              right; right
              refine ⟨symlinkMsg, ?_⟩
              simp [convertImageFS, convertImage, mkTaskEnv, convFail, statOf, hsp, hfi, hcod, hn0,
                hfo, hsym]
            | false =>
              right; left
              refine ⟨n, fin, rfl, hn0, rfl, ?_⟩
              simp [convertImageFS, convertImage, mkTaskEnv, convFail, statOf, hsp, hfi, hcod, hn0,
                hfo, hsym]

theorem skipDecision_iff (fs : FS) (i o : String) :
    shouldProcessImage (fsFind fs o).isSome (statOf fs i) (statOf fs o) = false
    ↔ SkipReady fs { inputPath := i, outputPath := o } := by
  rw [shouldProcessImage_spec]
  unfold SkipReady statOf
  cases hfi : fsFind fs i with
  | none => simp
  | some fin =>
    cases hfo : fsFind fs o with
    | none => simp
    | some fout => simp

theorem convertImageFS_skips (codec : String → Option Nat) (now : Nat) (fs : FS)
    (t : ConversionTask) (st : ConversionStats) (h : SkipReady fs t) :
    convertImageFS codec now fs t.inputPath t.outputPath st
      = (fs, { st with skipped := st.skipped + 1 },
         { success := true, skipped := some true, error := none }) := by
  have hsp : shouldProcessImage (fsFind fs t.outputPath).isSome
      (statOf fs t.inputPath) (statOf fs t.outputPath) = false :=
    (skipDecision_iff fs t.inputPath t.outputPath).mpr h
  simp [convertImageFS, convertImage, mkTaskEnv, hsp]

theorem runTasks_failed_prefix (codec : String → Option Nat) (now : Nat) :
    ∀ (tasks : List ConversionTask) (fs : FS) (st : ConversionStats),
      ∃ l, (runTasks codec now tasks fs st).2.failed = st.failed ++ l := by
  intro tasks
  induction tasks with
  | nil => intro fs st; exact ⟨[], by simp [runTasks]⟩
  | cons t rest ih =>
    intro fs st
    rw [runTasks_cons, convertImageFS_stats]
    rcases convertImage_outcome (mkTaskEnv codec now fs t.inputPath t.outputPath)
        t.inputPath t.outputPath st with ⟨hst, _⟩ | ⟨a, b, hst, _⟩ | ⟨m, hst, _⟩ <;>
      rw [hst]
    · obtain ⟨l2, hl2⟩ := ih _ { st with skipped := st.skipped + 1 }
      exact ⟨l2, hl2⟩
    · obtain ⟨l2, hl2⟩ :=
        ih _ { st with processed := st.processed + 1, totalBytes := st.totalBytes + a,
                       savedBytes := st.savedBytes + b }
      exact ⟨l2, hl2⟩
    · obtain ⟨l2, hl2⟩ := ih _ { st with failed := st.failed ++ [{ file := t.inputPath, error := m }] }
      exact ⟨{ file := t.inputPath, error := m } :: l2, by rw [hl2]; simp⟩

theorem skipReady_mono (now1 : Nat) (t : ConversionTask) (fs fs' : FS)
    (hin : fsFind fs' t.inputPath = fsFind fs t.inputPath)
    (hmt : ∀ p fi, fsFind fs p = some fi → fi.mtime ≤ now1)
    (hout : fsFind fs' t.outputPath = fsFind fs t.outputPath
        ∨ ∃ n, n ≠ 0 ∧ fsFind fs' t.outputPath
            = some { size := n, mtime := now1, isSymlink := false })
    (h : SkipReady fs t) : SkipReady fs' t := by
  obtain ⟨fin, fout, hfi, hfo, hsz, hle⟩ := h
  rcases hout with hsame | ⟨n, hn0, hnew⟩
  · exact ⟨fin, fout, hin.trans hfi, hsame.trans hfo, hsz, hle⟩
  · exact ⟨fin, { size := n, mtime := now1, isSymlink := false },
      hin.trans hfi, hnew, hn0, hmt _ _ hfi⟩

theorem fsFind_insert (fs : FS) (q p : String) (r : FileInfo) :
    fsFind (fsInsert fs q r) p = if q = p then some r else fsFind fs p := rfl

theorem run1_skipReady (codec : String → Option Nat) (now1 : Nat) :
    ∀ (tasks : List ConversionTask) (fs : FS) (st : ConversionStats),
      (∀ t ∈ tasks, ∀ s ∈ tasks, s.outputPath ≠ t.inputPath) →
      (∀ p fi, fsFind fs p = some fi → fi.mtime ≤ now1) →
      (runTasks codec now1 tasks fs st).2.failed = st.failed →
      (∀ t ∈ tasks, SkipReady (runTasks codec now1 tasks fs st).1 t)
      ∧ (∀ p fi, fsFind (runTasks codec now1 tasks fs st).1 p = some fi → fi.mtime ≤ now1)
      ∧ (∀ p, fsFind (runTasks codec now1 tasks fs st).1 p = fsFind fs p
           ∨ ∃ n, n ≠ 0 ∧ fsFind (runTasks codec now1 tasks fs st).1 p
               = some { size := n, mtime := now1, isSymlink := false })
      ∧ (∀ p, (∀ t ∈ tasks, t.outputPath ≠ p) →
            fsFind (runTasks codec now1 tasks fs st).1 p = fsFind fs p) := by
  intro tasks
  induction tasks with
  | nil =>
    intro fs st _ hmt _
    exact ⟨by simp, hmt, fun p => Or.inl rfl, fun p _ => rfl⟩
  | cons t rest ih =>
    intro fs st hdisj hmt hfail
    have hdisj' : ∀ u ∈ rest, ∀ s ∈ rest, s.outputPath ≠ u.inputPath :=
      fun u hu s hs => hdisj u (List.mem_cons_of_mem t hu) s (List.mem_cons_of_mem t hs)
    have hrest_out_in : ∀ u ∈ rest, u.outputPath ≠ t.inputPath :=
      fun u hu => hdisj t (List.mem_cons_self t rest) u (List.mem_cons_of_mem t hu)
    rcases convertImageFS_cases codec now1 fs t.inputPath t.outputPath st with
      ⟨hsp, heq⟩ | ⟨n, fin, hcod, hn0, hfi, heq⟩ | ⟨m, heq⟩
    · -- the head task was skipped: the filesystem is unchanged
      rw [runTasks_cons, heq] at hfail ⊢
      dsimp only at hfail ⊢
      have hSRt : SkipReady fs t := (skipDecision_iff fs t.inputPath t.outputPath).mp hsp
      obtain ⟨ih1, ih2, ih3, ih4⟩ := ih fs { st with skipped := st.skipped + 1 } hdisj' hmt hfail
      refine ⟨?_, ih2, ih3, ?_⟩
      · intro s hs
        rcases List.mem_cons.mp hs with rfl | hs
        · exact skipReady_mono now1 s fs _ (ih4 s.inputPath (fun u hu => hrest_out_in u hu))
            hmt (ih3 s.outputPath) hSRt
        · exact ih1 s hs
      · intro p hp
        exact ih4 p (fun u hu => hp u (List.mem_cons_of_mem t hu))
    · -- the head task converted successfully: its output is now fresh
      rw [runTasks_cons, heq] at hfail ⊢
      dsimp only at hfail ⊢
      have htio : t.outputPath ≠ t.inputPath :=
        hdisj t (List.mem_cons_self t rest) t (List.mem_cons_self t rest)
      have hmt1 : ∀ p fi,
          fsFind (fsInsert fs t.outputPath { size := n, mtime := now1, isSymlink := false }) p
            = some fi → fi.mtime ≤ now1 := by
        intro p fi h
        rw [fsFind_insert] at h
        split at h
        · cases h; exact Nat.le_refl now1
        · exact hmt p fi h
      have hSRt : SkipReady
          (fsInsert fs t.outputPath { size := n, mtime := now1, isSymlink := false }) t := by
        refine ⟨fin, { size := n, mtime := now1, isSymlink := false }, ?_, ?_, hn0, hmt _ _ hfi⟩
        · rw [fsFind_insert, if_neg htio]
          exact hfi
        · rw [fsFind_insert, if_pos rfl]
      obtain ⟨ih1, ih2, ih3, ih4⟩ := ih
        (fsInsert fs t.outputPath { size := n, mtime := now1, isSymlink := false })
        { st with processed := st.processed + 1, totalBytes := st.totalBytes + fin.size,
                  savedBytes := st.savedBytes + ((fin.size : Int) - (n : Int)) }
        hdisj' hmt1 hfail
      refine ⟨?_, ih2, ?_, ?_⟩
      · intro s hs
        rcases List.mem_cons.mp hs with rfl | hs
        · exact skipReady_mono now1 s _ _ (ih4 s.inputPath (fun u hu => hrest_out_in u hu))
            hmt1 (ih3 s.outputPath) hSRt
        · exact ih1 s hs
      · intro p
        rcases ih3 p with hsame | hnew
        · rw [hsame, fsFind_insert]
          by_cases hop : t.outputPath = p
          · exact Or.inr ⟨n, hn0, by rw [if_pos hop]⟩
          · exact Or.inl (by rw [if_neg hop])
        · exact Or.inr hnew
      · intro p hp
        rw [ih4 p (fun u hu => hp u (List.mem_cons_of_mem t hu)), fsFind_insert,
          if_neg (hp t (List.mem_cons_self t rest))]
    · -- the head task failed: contradicts a failure-free run
      exfalso
      rw [runTasks_cons, heq] at hfail
      dsimp only at hfail
      obtain ⟨l, hl⟩ := runTasks_failed_prefix codec now1 rest fs
        { st with failed := st.failed ++ [{ file := t.inputPath, error := m }] }
      rw [hl] at hfail
      have hlen := congrArg List.length hfail
      simp [List.length_append] at hlen

theorem runTasks_all_skip (codec : String → Option Nat) (now : Nat) :
    ∀ (tasks : List ConversionTask) (fs : FS) (st : ConversionStats),
      (∀ t ∈ tasks, SkipReady fs t) →
      runTasks codec now tasks fs st
        = (fs, { st with skipped := st.skipped + tasks.length }) := by
  intro tasks
  induction tasks with
  | nil => intro fs st _; simp [runTasks]
  | cons t rest ih =>
    intro fs st h
    rw [runTasks_cons, convertImageFS_skips codec now fs t st (h t (List.mem_cons_self t rest))]
    dsimp only
    rw [ih fs { st with skipped := st.skipped + 1 }
      (fun s hs => h s (List.mem_cons_of_mem t hs))]
    have : st.skipped + 1 + rest.length = st.skipped + (rest.length + 1) := by omega
    simp [this]

/-- C8 (amended): after a completed first run in which no file failed,
running the same conversion again over the unchanged filesystem (same
inputs, same output-directory argument, same codec behaviour, a later run
clock, task outputs never doubling as task inputs, and no timestamp from
the future) completes with processed = 0 and skipped = totalFiles, every
task being skipped by the skip policy or the collision check, and leaves
the filesystem untouched. -/
theorem second_run_all_skipped (codec : String → Option Nat)
    (pf : String → Except String Unit) (k now1 now2 dur1 dur2 : Nat)
    (fs0 fs1 : FS) (inputs : List RunInput) (od : Option String)
    (res1 : ConversionResult) (st : ConversionStats) (tasks : List ConversionTask)
    (hc : collectAll pf od inputs (initStats, []) = .ok (st, tasks))
    (hdisj : ∀ t ∈ tasks, ∀ s ∈ tasks, s.outputPath ≠ t.inputPath)
    (hmt : ∀ p fi, fsFind fs0 p = some fi → fi.mtime ≤ now1)
    (h1 : runAllModel ⟨codec, now1, dur1, pf, k⟩ fs0 inputs od = .ok (fs1, res1))
    (hok : res1.failed = []) :
    ∃ res2, runAllModel ⟨codec, now2, dur2, pf, k⟩ fs1 inputs od = .ok (fs1, res2)
      ∧ res2.processed = 0 ∧ res2.skipped = res2.totalFiles := by
  obtain ⟨st', tasks', hc', h0, hfs1, hres1⟩ :=
    runAllModel_ok ⟨codec, now1, dur1, pf, k⟩ fs0 inputs od fs1 res1 h1
  rw [hc] at hc'
  obtain ⟨rfl, rfl⟩ : st = st' ∧ tasks = tasks' := by
    have := Except.ok.inj hc'
    exact ⟨congrArg Prod.fst this, congrArg Prod.snd this⟩
  obtain ⟨hdi1, hdi2, hdi3⟩ : DiscInv st tasks :=
    collectAll_inv pf od inputs (initStats, []) st tasks ⟨rfl, rfl, rfl⟩ hc
  rw [processInBatchesFS_eq_runTasks] at hfs1 hres1
  have hfailed : (runTasks codec now1 tasks fs0 st).2.failed = st.failed := by
    have : res1.failed = (runTasks codec now1 tasks fs0 st).2.failed := by
      rw [hres1]; rfl
    rw [← this, hok, hdi3]
  obtain ⟨hsr, _, _, _⟩ := run1_skipReady codec now1 tasks fs0 st hdisj hmt hfailed
  rw [← hfs1] at hsr
  have hrun2 : runTasks codec now2 tasks fs1 st
      = (fs1, { st with skipped := st.skipped + tasks.length }) :=
    runTasks_all_skip codec now2 tasks fs1 st hsr
  refine ⟨buildResult { st with skipped := st.skipped + tasks.length } dur2, ?_, ?_, ?_⟩
  · unfold runAllModel
    rw [hc]
    dsimp only
    rw [if_neg h0]
    rw [processInBatchesFS_eq_runTasks, hrun2]
  · exact hdi2
  · show st.skipped + tasks.length = st.totalFiles
    omega

/-! Closed double-run scenarios for the idempotence claim. -/

def fs8 : FS := [("f/c.png", { size := 9, mtime := 1, isSymlink := false })]

def env8a : RunEnv :=
  { codec := fun _ => none, now := 10, durationMs := 0
    preflight := fun _ => .ok (), maxConcurrent := 4 }

def env8b : RunEnv := { env8a with now := 20 }

/-- C8 counterexample: a first run over a directory whose one image the
codec cannot convert completes (failure is per-file) and leaves the
directory unchanged, yet the second run over the unchanged directory does
not skip everything: it retries, fails again, and ends with processed 0
but skipped 0, not skipped = totalFiles = 1. -/
theorem idempotence_counterexample :
    (runAllModel env8a fs8 [.dir "f" ["c.png"]] none).toOption.map (fun r => r.1)
      = some fs8
    ∧ (runAllModel env8b fs8 [.dir "f" ["c.png"]] none).toOption.map
        (fun r => (r.2.processed, r.2.skipped, r.2.totalFiles)) = some (0, 0, 1)
    ∧ (runAllModel env8b fs8 [.dir "f" ["c.png"]] none).toOption.map (fun r => r.2.skipped)
      ≠ (runAllModel env8b fs8 [.dir "f" ["c.png"]] none).toOption.map
          (fun r => r.2.totalFiles) :=
  ⟨by decide, by decide, by decide⟩

def codec9 : String → Option Nat := fun _ => some 40

def pf9 : String → Except String Unit := fun _ => .ok ()

def fs9 : FS := [("g/a.png", { size := 0, mtime := 1, isSymlink := false })]

def fs9' : FS :=
  [("g/a.webp", { size := 40, mtime := 10, isSymlink := false }),
   ("g/a.png", { size := 0, mtime := 1, isSymlink := false })]

def res9 : ConversionResult :=
  { totalFiles := 1, processed := 1, skipped := 0, failed := []
    duration := "0s", totalSize := "0.00 B", savedSize := "-40.00 B"
    compressionRatio := "0%" }

/-- Closed instance of the amended C8 theorem: a directory whose one
image converted successfully in the first run is entirely skipped by the
second. -/
theorem second_run_all_skipped_witness :
    ∃ res2, runAllModel ⟨codec9, 20, 0, pf9, 4⟩ fs9' [.dir "g" ["a.png"]] none
        = .ok (fs9', res2)
      ∧ res2.processed = 0 ∧ res2.skipped = res2.totalFiles :=
  second_run_all_skipped codec9 pf9 4 10 20 0 0 fs9 fs9' [.dir "g" ["a.png"]] none
    res9 { initStats with totalFiles := 1 }
    [{ inputPath := "g/a.png", outputPath := "g/a.webp" }]
    rfl (by decide)
    (by
      intro p fi h
      simp only [fs9, fsFind] at h
      split at h
      · cases h; decide
      · exact Option.noConfusion h)
    rfl rfl

end Towebp
